import Mathlib

/-!
Verification of the MQTT bridge of hr20-esp12-master (src/src/mqtt.h).

The development shallowly embeds the topic path codec (`Path::parse`,
`Path::compose`), the publication scheduler (`MQTTPublisher::update`,
`publish_frequent`, `publish_timers`, `publish_timer_slot`), the inbound
command dispatcher (`MQTTPublisher::callback`) and the connection manager
(`MQTTPublisher::reconnect`).

C strings are embedded as `List Char` (a C string holds no NUL byte, and the
end of the list plays the role of the terminator).  A `const char *` cursor
into the input is embedded as the remaining suffix of the list; the null
pointer is `Option.none`.  `uint8_t` arithmetic is `Nat` arithmetic reduced
`% 256` exactly where the C type wraps.  The process-wide mutable
`Path::prefix` is passed as an explicit argument `pfx`.

Constants that live in headers outside `src/` (`config.h`, `master.h`) are
modelled from the spec where needed and marked as such in their comments.
-/

namespace hr20
namespace mqtt

/-- The attribute-topic enum of mqtt.h (each has a distinct initial letter). -/
inductive Topic where
  | AVG_TMP
  | BAT
  | ERR
  | LOCK
  | MODE
  | REQ_TMP
  | VALVE_WTD
  | WND
  | LAST_SEEN
  | TIMER
  | STATE
  | INVALID_TOPIC
deriving DecidableEq, Repr

/-- Numeric value of each `Topic` enumerator, as declared in the source. -/
def Topic.code : Topic → Nat
  | .AVG_TMP => 1
  | .BAT => 2
  | .ERR => 3
  | .LOCK => 4
  | .MODE => 5
  | .REQ_TMP => 6
  | .VALVE_WTD => 7
  | .WND => 8
  | .LAST_SEEN => 9
  | .TIMER => 10
  | .STATE => 11
  | .INVALID_TOPIC => 255

/-- The timer sub-topic enum of mqtt.h. -/
inductive TimerTopic where
  | TIMER_NONE
  | TIMER_TIME
  | TIMER_MODE
  | INVALID_TIMER_TOPIC
deriving DecidableEq, Repr

/-- Numeric value of each `TimerTopic` enumerator. -/
def TimerTopic.code : TimerTopic → Nat
  | .TIMER_NONE => 0
  | .TIMER_TIME => 1
  | .TIMER_MODE => 2
  | .INVALID_TIMER_TOPIC => 255

def S_AVG_TMP : List Char := "average_temp".toList
def S_BAT : List Char := "battery".toList
def S_ERR : List Char := "error".toList
def S_LOCK : List Char := "lock".toList
def S_MODE : List Char := "mode".toList
def S_REQ_TMP : List Char := "requested_temp".toList
def S_VALVE_WTD : List Char := "valve_wanted".toList
def S_WND : List Char := "window".toList
def S_LAST_SEEN : List Char := "last_seen".toList
def S_STATE : List Char := "state".toList
def S_TIMER : List Char := "timer".toList
def S_TIMER_LEN : Nat := 5
def S_TIMER_MODE : List Char := "mode".toList
def S_TIMER_TIME : List Char := "time".toList
def S_SET_MODE : List Char := "set".toList

/-- `topic_str` of mqtt.h. -/
def topic_str : Topic → List Char
  | .AVG_TMP => S_AVG_TMP
  | .BAT => S_BAT
  | .ERR => S_ERR
  | .LOCK => S_LOCK
  | .MODE => S_MODE
  | .REQ_TMP => S_REQ_TMP
  | .VALVE_WTD => S_VALVE_WTD
  | .WND => S_WND
  | .LAST_SEEN => S_LAST_SEEN
  | .STATE => S_STATE
  | .TIMER => S_TIMER
  | .INVALID_TOPIC => "invalid!".toList

/-- `timer_topic_str` of mqtt.h; the C function yields `nullptr` outside
TIME/MODE, which the string builder appends as nothing. -/
def timer_topic_str : TimerTopic → List Char
  | .TIMER_TIME => S_TIMER_TIME
  | .TIMER_MODE => S_TIMER_MODE
  | _ => []

/-- `parse_topic` of mqtt.h: dispatch on the first character, then `strcmp`
against the full remaining C string — except for `timer`, which is matched by
`strncmp(top, S_TIMER, S_TIMER_LEN)`, i.e. on its first five characters only. -/
def parse_topic (top : List Char) : Topic :=
  match top with
  | [] => .INVALID_TOPIC
  | c :: _ =>
    if c = 'a' then (if top = S_AVG_TMP then .AVG_TMP else .INVALID_TOPIC)
    else if c = 'b' then (if top = S_BAT then .BAT else .INVALID_TOPIC)
    else if c = 'e' then (if top = S_ERR then .ERR else .INVALID_TOPIC)
    else if c = 'l' then
      (if top = S_LOCK then .LOCK
       else if top = S_LAST_SEEN then .LAST_SEEN else .INVALID_TOPIC)
    else if c = 'm' then (if top = S_MODE then .MODE else .INVALID_TOPIC)
    else if c = 'r' then (if top = S_REQ_TMP then .REQ_TMP else .INVALID_TOPIC)
    else if c = 's' then (if top = S_STATE then .STATE else .INVALID_TOPIC)
    else if c = 't' then
      (if top.take S_TIMER_LEN = S_TIMER then .TIMER else .INVALID_TOPIC)
    else if c = 'v' then (if top = S_VALVE_WTD then .VALVE_WTD else .INVALID_TOPIC)
    else if c = 'w' then (if top = S_WND then .WND else .INVALID_TOPIC)
    else .INVALID_TOPIC

/-- `parse_timer_topic` of mqtt.h. -/
def parse_timer_topic (top : List Char) : TimerTopic :=
  match top with
  | [] => .INVALID_TIMER_TOPIC
  | c :: _ =>
    if c = 't' then (if top = S_TIMER_TIME then .TIMER_TIME else .INVALID_TIMER_TOPIC)
    else if c = 'm' then (if top = S_TIMER_MODE then .TIMER_MODE else .INVALID_TIMER_TOPIC)
    else .INVALID_TIMER_TOPIC

/-- The value object `Path` of mqtt.h (address, topic, optional timer
coordinates, setter branch flag). -/
structure Path where
  addr : Nat
  day : Nat
  slot : Nat
  topic : Topic
  timer_topic : TimerTopic
  setter : Bool
deriving DecidableEq, Repr

/-- The default-constructed `Path` (`return {}` in the parser): the member
initializers of the source give address 0, topic INVALID, sub-topic NONE. -/
def Path.empty : Path := ⟨0, 0, 0, .INVALID_TOPIC, .TIMER_NONE, false⟩

/-- `Path::valid`: a zero address marks an invalid path. -/
def Path.valid (p : Path) : Bool := p.addr != 0

/-- `Path::as_uint`: compressed 16-bit diagnostic code. -/
def Path.as_uint (p : Path) : Nat :=
  (p.addr ||| (p.topic.code <<< 5) ||| (p.timer_topic.code <<< 9)) % 65536

/-- `Path::Token`: a pointer into the input paired with the token's byte
count.  The pointer is embedded as the remaining suffix of the input; the
count is a `uint8_t` in C (`p - pos` narrowed), hence the `% 256`. -/
abbrev Token : Type := List Char × Nat

/-- `Path::token`: span until the next separator (or the end). -/
def token (p : List Char) : Token :=
  (p, (p.takeWhile (fun c => c ≠ '/')).length % 256)

/-- `Path::skip_separator` (null pointer = `none`): skip one separator; if
nothing follows it, or `p` is null, yield null; if the separator is missing,
yield `other`. -/
def skip_separator (p : Option (List Char)) (other : Option (List Char)) :
    Option (List Char) :=
  match p with
  | none => none
  | some [] => other
  | some (c :: rest) =>
    if c = '/' then (if rest = [] then none else some rest) else other

/-- `Path::skip_token`: the token's characters plus one separator. -/
def skip_token (t : Token) : Option (List Char) :=
  skip_separator (some (t.1.drop t.2)) none

/-- `Path::cmp_tokens`: equal counts and `strncmp` over that count; yields
the position right after the first token on a match. -/
def cmp_tokens (a b : Token) : Option (List Char) :=
  if a.2 ≠ b.2 then none
  else if a.1.take a.2 = b.1.take b.2 then some (a.1.drop a.2) else none

/-- The loop body of `Path::skip_prefix`.  The C loop runs while both
cursors are non-null; every iteration consumes at least one character of the
prefix, so `pfx.length + 1` units of fuel (supplied by ` skip_pfx` below) are
provably enough — ` skip_pfx_loop_fuel` states the fuel-independence. -/
def skip_pfx_loop : Nat → List Char → List Char → Option (List Char)
  | 0, _, _ => none
  | fuel + 1, p, pfx =>
    let p_t := token p
    let pfx_t := token pfx
    match cmp_tokens p_t pfx_t with
    | none => none
    | some _ =>
      match skip_token pfx_t with
      | none => skip_token p_t
      | some pfx2 =>
        match skip_token p_t with
        | none => none
        | some p2 => skip_pfx_loop fuel p2 pfx2

/-- `Path::skip_prefix`: skip one optional leading separator on both sides,
then consume the prefix token by token. -/
def skip_pfx (p pfx : List Char) : Option (List Char) :=
  let p0 := skip_separator (some p) (some p)
  let pfx0 := skip_separator (some pfx) (some pfx)
  match p0, pfx0 with
  | _, none => p0
  | none, some _ => none
  | some p1, some pfx1 => skip_pfx_loop (pfx1.length + 1) p1 pfx1

/-- The characters the `switch` of `Path::to_num` accepts. -/
def is_digit_char (c : Char) : Bool := 48 ≤ c.toNat && c.toNat ≤ 57

/-- Body of `Path::to_num`: `res` is a `uint8_t`, so both the `*= 10` and the
`+= digit` wrap modulo 256; the cursor stops at the first non-digit and `cnt`
bounds the number of characters examined. -/
def to_num_go : List Char → Nat → Nat → Nat × List Char
  | p, 0, res => (res, p)
  | [], _ + 1, res => (res, [])
  | c :: cs, cnt + 1, res =>
    if is_digit_char c then to_num_go cs cnt ((res * 10 + (c.toNat - 48)) % 256)
    else (res, c :: cs)

/-- `Path::to_num`: returns the parsed value and the advanced cursor. -/
def to_num (p : List Char) (cnt : Nat) : Nat × List Char := to_num_go p cnt 0

/-- The timer suffix grammar of `Path::parse` (entered once the topic matched
`timer`): separator, day, separator, slot, separator, timer sub-topic. -/
def parse_timer_tail (address : Nat) (set_mode : Bool) (pos : List Char) : Path :=
  let tt_t := token pos
  match tt_t.1.drop tt_t.2 with
  | '/' :: pos1 =>
    let d_t := token pos1
    let dn := to_num pos1 d_t.2
    match dn.2 with
    | '/' :: pos2 =>
      let s_t := token pos2
      let sn := to_num pos2 s_t.2
      match sn.2 with
      | '/' :: pos3 =>
        let tt := parse_timer_topic pos3
        if tt = .INVALID_TIMER_TOPIC then Path.empty
        else ⟨address, dn.1, sn.1, .TIMER, tt, set_mode⟩
      | _ => Path.empty
    | _ => Path.empty
  | _ => Path.empty

/-- `Path::parse` from the address token onward (after the optional `set`
branch was recognised): address number, separator, topic, optional timer
suffix. -/
def parse_tail (set_mode : Bool) (pos : List Char) : Path :=
  let addr_t := token pos
  let an := to_num pos addr_t.2
  match an.2 with
  | '/' :: pos1 =>
    let top := parse_topic pos1
    if top = .INVALID_TOPIC then Path.empty
    else if top = .TIMER then parse_timer_tail an.1 set_mode pos1
    else ⟨an.1, 0, 0, top, .TIMER_NONE, set_mode⟩
  | _ => Path.empty

/-- `Path::parse`.  `pfx` is the process-wide `Path::prefix`, passed
explicitly. -/
def parse (pfx : List Char) (p : List Char) : Path :=
  match skip_pfx p pfx with
  | none => Path.empty
  | some pos =>
    if pos = [] then Path.empty
    else
      let addr_t := token pos
      match cmp_tokens addr_t (S_SET_MODE, 3) with
      | some _ =>
        match skip_token addr_t with
        | none => Path.empty
        | some pos2 => parse_tail true pos2
      | none => parse_tail false pos

/-- Decimal ASCII rendering of an unsigned integer.
Modelled from the spec: `StrMaker` (str.h, outside src/) renders integers as
decimal ASCII (§6 "integers as decimal ASCII").  Fuel-structured so that it
reduces; `n + 1` digits are always enough fuel. -/
def dec_chars_go : Nat → Nat → List Char
  | 0, _ => []
  | fuel + 1, n =>
    if n < 10 then [Char.ofNat (48 + n)]
    else dec_chars_go fuel (n / 10) ++ [Char.ofNat (48 + n % 10)]

def dec_chars (n : Nat) : List Char := dec_chars_go (n + 1) n

/-- The numeric value of a digit string (the mathematical value, before the
parser's uint8 wrap-around). -/
def dec_value (ds : List Char) : Nat :=
  ds.foldl (fun a c => a * 10 + (c.toNat - 48)) 0

/-- `Path::compose` into an unbounded buffer (the claims presume the
128-byte `PathBuffer` is large enough, which it is for every valid path). -/
def compose (pfx : List Char) (p : Path) : List Char :=
  pfx ++ '/' ::
    ((if p.setter then S_SET_MODE ++ ['/'] else []) ++
      dec_chars p.addr ++ '/' :: topic_str p.topic ++
      (if p.topic = .TIMER then
        '/' :: dec_chars p.day ++ '/' :: dec_chars p.slot ++
          '/' :: timer_topic_str p.timer_topic
      else []))

/-- `Path::compose_set_prefix_wildcard`: the subscription topic
`<prefix>/set/#`. -/
def compose_set_pfx_wildcard (pfx : List Char) : List Char :=
  pfx ++ ['/'] ++ S_SET_MODE ++ ['/'] ++ ['#']

/-! ## Change mask
Modelled from the spec: the per-address change mask layout lives in master.h
(outside src/).  §3: one 32-bit value per address, one bit "frequent group
changed" and eight bits "timer day d changed" (d = 0..7); here bit 0 is the
frequent bit and bit d+1 is timer day d, matching
`change_get_timer_mask` / `timer_day_2_change` as mqtt.h uses them. -/

def CHANGE_FREQUENT : Nat := 1
def CHANGE_TIMER_MASK : Nat := 0x1FE
def change_get_timer_mask (m : Nat) : Nat := (m >>> 1) &&& 0xFF
def timer_day_2_change (d : Nat) : Nat := 1 <<< (d + 1)

/-- Modelled from the spec: `MAX_HR_ADDR` (config.h, outside src/) bounds the
round-robin; §3 gives the address space 0..31. -/
def MAX_HR_ADDR : Nat := 32

/-! ## Device model
Modelled from the spec: the device model (master.h, outside src/) exposes per
attribute a cached value with a "published" flag and a remote-validity flag
(§6 "typed attribute accessors with published flag"), and an 8×8 array of
timer slots.  Only these two flags matter to the publisher's control flow;
the textual value conversion is delegated and not modelled. -/

structure CachedValue where
  published : Bool
  remote_valid : Bool
deriving DecidableEq, Repr

structure HRDevice where
  auto_mode : CachedValue
  menu_locked : CachedValue
  mode_window : CachedValue
  temp_avg : CachedValue
  bat_avg : CachedValue
  temp_wanted : CachedValue
  cur_valve_wtd : CachedValue
  ctl_err : CachedValue
  timers : List (List CachedValue)
deriving DecidableEq, Repr

/-- The log/event stream of the publisher (ERR/EVENT macros of mqtt.h). -/
inductive Event where
  | mqtt_publish (hint : Nat)
  | mqtt_cant_publish (hint : Nat)
  | mqtt_invalid_client
  | mqtt_invalid_topic
  | mqtt_callback_bad_addr
  | mqtt_invalid_timer_topic_arg (arg : Nat)
  | mqtt_invalid_timer_topic
  | mqtt_invalid_topic_value (hint : Nat)
  | mqtt_callback (hint : Nat)
deriving DecidableEq, Repr

/-- The publisher's cursor and change-mask array (`MQTTPublisher` fields
`states`, `addr`, `state_maj`, `state_min`; the three cursor fields are
`uint8_t`). -/
structure PubState where
  states : List Nat
  addr : Nat
  state_maj : Nat
  state_min : Nat
deriving DecidableEq, Repr

/-- The publisher together with the referenced device model
(`master.model`, a device per address or none). -/
structure World where
  pub : PubState
  model : List (Option HRDevice)
deriving DecidableEq, Repr

def getState (s : PubState) : Nat := s.states.getD s.addr 0

def setState (s : PubState) (v : Nat) : PubState :=
  { s with states := s.states.set s.addr v }

/-- The scheduler cursor (addr, state_maj, state_min). -/
def cursor (w : World) : Nat × Nat × Nat :=
  (w.pub.addr, w.pub.state_maj, w.pub.state_min)

/-- `MQTTPublisher::next_client`: advance the address (uint8_t increment,
then wrap at MAX_HR_ADDR) and reset the major/minor state. -/
def next_client (s : PubState) : PubState :=
  let a := (s.addr + 1) % 256
  { s with addr := if MAX_HR_ADDR ≤ a then 0 else a, state_maj := 0, state_min := 0 }

/-- `MQTTPublisher::next_major`: reset the minor state, bump the major one
and move to the next client past STM_NEXT_CLIENT. -/
def next_major (s : PubState) : PubState :=
  let s2 := { s with state_min := 0, state_maj := (s.state_maj + 1) % 256 }
  if 2 ≤ s2.state_maj then next_client s2 else s2

/-- The diagnostic hint of a frequent-walk publish: `p.as_uint()` for
`Path{addr, topic}`. -/
def freq_hint (addr : Nat) (t : Topic) : Nat :=
  (Path.mk addr 0 0 t .TIMER_NONE false).as_uint

/-- `MQTTPublisher::publish` over a cached value: skip if already published
or not remotely valid; otherwise one transport publish (whose boolean result
`ok` only picks the logged event) and the published flag is set to true
regardless of that result.  `ok` is the transport's verdict for this call. -/
def publish_value (ok : Bool) (hint : Nat) (v : CachedValue) :
    CachedValue × Nat × List Event :=
  if v.published || !v.remote_valid then (v, 0, [])
  else
    ({ v with published := true }, 1,
      [if ok then .mqtt_publish hint else .mqtt_cant_publish hint])

/-- `MQTTPublisher::publish_timer_slot`: if the slot is unpublished and
remotely valid, publish the mode sub-value and the time sub-value (two
transport calls, results `ok0` and `ok1`), log one event, and mark the slot
published regardless of either result. -/
def publish_timer_slot (ok0 ok1 : Bool) (hint : Nat) (v : CachedValue) :
    CachedValue × Nat × List Event :=
  if !v.published && v.remote_valid then
    ({ v with published := true }, 2,
      [if !ok0 || !ok1 then .mqtt_cant_publish hint else .mqtt_publish hint])
  else (v, 0, [])

/-- One step of the frequent-field walk over a named attribute slot:
publish the value, store the updated flag back into the device, and bump
`state_min` (a uint8_t). -/
def freq_step (ok : Bool) (w : World) (t : Topic) (v : CachedValue)
    (upd : CachedValue → HRDevice) : World × Nat × List Event :=
  let r := publish_value ok (freq_hint w.pub.addr t) v
  (⟨{ w.pub with state_min := (w.pub.state_min + 1) % 256 },
    w.model.set w.pub.addr (some (upd r.1))⟩, r.2.1, r.2.2)

/-- `MQTTPublisher::publish_frequent`.  `oracle k` is the transport's verdict
for the k-th publish call of this tick.  The MQTT_JSON state 9 is compiled
out (the `#ifdef` is off in the default build), so `state_min ≥ 9` falls to
the default branch that clears the frequent change bit.  When the model has
no device for the address the source logs and returns without touching any
state. -/
def publish_frequent (oracle : Nat → Bool) (w : World) : World × Nat × List Event :=
  if getState w.pub &&& CHANGE_FREQUENT = 0 then
    (⟨next_major w.pub, w.model⟩, 0, [])
  else
    match w.model.getD w.pub.addr none with
    | none => (w, 0, [.mqtt_invalid_client])
    | some hr =>
      match w.pub.state_min with
      | 0 => freq_step (oracle 0) w .MODE hr.auto_mode
          (fun v => { hr with auto_mode := v })
      | 1 => freq_step (oracle 0) w .LOCK hr.menu_locked
          (fun v => { hr with menu_locked := v })
      | 2 => freq_step (oracle 0) w .WND hr.mode_window
          (fun v => { hr with mode_window := v })
      | 3 => freq_step (oracle 0) w .AVG_TMP hr.temp_avg
          (fun v => { hr with temp_avg := v })
      | 4 => freq_step (oracle 0) w .BAT hr.bat_avg
          (fun v => { hr with bat_avg := v })
      | 5 => freq_step (oracle 0) w .REQ_TMP hr.temp_wanted
          (fun v => { hr with temp_wanted := v })
      | 6 => freq_step (oracle 0) w .VALVE_WTD hr.cur_valve_wtd
          (fun v => { hr with cur_valve_wtd := v })
      | 7 => freq_step (oracle 0) w .ERR hr.ctl_err
          (fun v => { hr with ctl_err := v })
      | 8 =>
        -- last_seen goes through the unconditional publish(Path, Str)
        -- overload: always one transport call, no published flag.
        (⟨{ w.pub with state_min := (w.pub.state_min + 1) % 256 }, w.model⟩, 1,
          [if oracle 0 then .mqtt_publish (freq_hint w.pub.addr .LAST_SEEN)
           else .mqtt_cant_publish (freq_hint w.pub.addr .LAST_SEEN)])
      | _ =>
        (⟨next_major (setState w.pub
            (getState w.pub &&& (0xFFFFFFFF ^^^ CHANGE_FREQUENT))), w.model⟩, 0, [])

/-- `MQTTPublisher::publish_timers`: the minor state packs day/slot; the
minor state always advances once past the guards; the day's change bit is
cleared when slot 7 is reached, before the publish attempts. -/
def publish_timers (oracle : Nat → Bool) (w : World) : World × Nat × List Event :=
  match w.model.getD w.pub.addr none with
  | none => (w, 0, [.mqtt_invalid_client])
  | some hr =>
    let st := getState w.pub
    if st &&& CHANGE_TIMER_MASK = 0 then (⟨next_major w.pub, w.model⟩, 0, [])
    else
      let day := w.pub.state_min >>> 3
      let slot := w.pub.state_min &&& 7
      let pub1 := { w.pub with state_min := (w.pub.state_min + 1) % 256 }
      let mask := change_get_timer_mask st
      if 8 ≤ day then (⟨next_major pub1, w.model⟩, 0, [])
      else if (1 <<< day) &&& mask = 0 then (⟨pub1, w.model⟩, 0, [])
      else
        let pub2 := if slot = 7 then
            setState pub1 (st &&& (0xFFFFFFFF ^^^ timer_day_2_change day))
          else pub1
        let p : Path := ⟨w.pub.addr, day, slot, .TIMER, .TIMER_NONE, false⟩
        let row := hr.timers.getD day []
        let r := publish_timer_slot (oracle 0) (oracle 1) p.as_uint
          (row.getD slot ⟨false, false⟩)
        (⟨pub2, w.model.set w.pub.addr
            (some { hr with timers := hr.timers.set day (row.set slot r.1) })⟩,
          r.2.1, r.2.2)

/-- `MQTTPublisher::update` after `reconnect(now)` reported ready and
`client.loop()` polled (the claims condition on that point; `reconnect` is
modelled separately below): skip an address with no pending changes,
otherwise run one step of the major state's walk. -/
def update (oracle : Nat → Bool) (w : World) : World × Nat × List Event :=
  if getState w.pub = 0 then (⟨next_client w.pub, w.model⟩, 0, [])
  else
    match w.pub.state_maj with
    | 0 => publish_frequent oracle w
    | 1 => publish_timers oracle w
    | _ => (⟨next_client w.pub, w.model⟩, 0, [])

/-! ## Connection manager -/

/-- Outcome of one `MQTTPublisher::reconnect(now)` call: the returned
readiness, the updated `last_conn` timestamp, whether a connect was
attempted, and the topic subscribed to on success. -/
structure ReconnectOut where
  ready : Bool
  last_conn : Int
  attempted : Bool
  subscribed : Option (List Char)
deriving DecidableEq, Repr

/-- `MQTTPublisher::reconnect`.  `retry` is `MQTT_RECONNECT_TIME` (config.h,
outside src/; the configured minimum retry interval).  When not connected and
the interval has elapsed, `last_conn = now` is recorded before the connect
call, so the back-off applies whether `connect_ok` or not; on success the
`<prefix>/set/#` wildcard is subscribed. -/
def reconnect (retry : Int) (pfx : List Char) (connected : Bool)
    (connect_ok : Bool) (now last_conn : Int) : ReconnectOut :=
  if connected then ⟨true, last_conn, false, none⟩
  else if now - last_conn < retry then ⟨false, last_conn, false, none⟩
  else if !connect_ok then ⟨false, now, true, none⟩
  else ⟨true, now, true, some (compose_set_pfx_wildcard pfx)⟩

/-! ## Inbound command dispatcher -/

/-- The device-model setter invoked by `MQTTPublisher::callback`; the
callback performs at most one, and the device state changes only through
it. -/
inductive SetterCall where
  | temp_wanted (v : List Char)
  | auto_mode (v : List Char)
  | menu_locked (v : List Char)
  | timer_mode (day slot : Nat) (v : List Char)
  | timer_time (day slot : Nat) (v : List Char)
deriving DecidableEq, Repr

/-- What one `callback` invocation does: the logged events in order and the
setter it dispatched to (none on every rejection path). -/
structure CallbackOut where
  events : List Event
  call : Option SetterCall
deriving DecidableEq, Repr

/-- The shared tail of the callback's switch: EVENT(MQTT_CALLBACK) plus the
"invalid topic value" error when the setter reported failure. -/
def finish_cb (p : Path) (ok : Bool) (pre : List Event)
    (call : Option SetterCall) : CallbackOut :=
  ⟨pre ++ [.mqtt_callback p.as_uint] ++
    (if ok then [] else [.mqtt_invalid_topic_value p.as_uint]), call⟩

/-- `MQTTPublisher::callback`.  `tdays`/`tslots` are `TIMER_DAYS` and
`TIMER_SLOTS_PER_DAY` (config.h, outside src/): the device model's configured
timer bounds, kept as parameters.  `setter_ok` is the value conversion's
verdict for whichever setter runs. -/
def callback (pfx : List Char) (tdays tslots : Nat)
    (model : List (Option HRDevice)) (setter_ok : Bool)
    (topic payload : List Char) : CallbackOut :=
  let p := parse pfx topic
  if p.valid = false then ⟨[.mqtt_invalid_topic], none⟩
  else if p.setter = false then ⟨[.mqtt_invalid_topic], none⟩
  else
    match model.getD p.addr none with
    | none => ⟨[.mqtt_callback_bad_addr], none⟩
    | some _ =>
      match p.topic with
      | .REQ_TMP => finish_cb p setter_ok [] (some (.temp_wanted payload))
      | .MODE => finish_cb p setter_ok [] (some (.auto_mode payload))
      | .LOCK => finish_cb p setter_ok [] (some (.menu_locked payload))
      | .TIMER =>
        if tdays ≤ p.day then
          finish_cb p true [.mqtt_invalid_timer_topic_arg (p.day ||| 0x10)] none
        else if tslots ≤ p.slot then
          finish_cb p true [.mqtt_invalid_timer_topic_arg (p.slot ||| 0x20)] none
        else
          match p.timer_topic with
          | .TIMER_MODE =>
            finish_cb p setter_ok [] (some (.timer_mode p.day p.slot payload))
          | .TIMER_TIME =>
            finish_cb p setter_ok [] (some (.timer_time p.day p.slot payload))
          | _ => finish_cb p true [.mqtt_invalid_timer_topic] none
      | _ => ⟨[.mqtt_invalid_topic], none⟩

/-- A sample device for concrete witnesses: every value unpublished and
remotely valid, 8×8 timer slots. -/
def sample_device : HRDevice :=
  ⟨⟨false, true⟩, ⟨false, true⟩, ⟨false, true⟩, ⟨false, true⟩, ⟨false, true⟩,
   ⟨false, true⟩, ⟨false, true⟩, ⟨false, true⟩,
   List.replicate 8 (List.replicate 8 ⟨false, true⟩)⟩

/-- Witness state: address 0 in FREQUENT with the frequent bit pending. -/
def sample_world_freq : World :=
  ⟨⟨(List.replicate 32 0).set 0 1, 0, 0, 0⟩,
   (List.replicate 32 none).set 0 (some sample_device)⟩

/-- Witness state: address 0 in TIMER at day 2 / slot 7 with day 2 pending. -/
def sample_world_timer : World :=
  ⟨⟨(List.replicate 32 0).set 0 (timer_day_2_change 2), 0, 1, 23⟩,
   (List.replicate 32 none).set 0 (some sample_device)⟩

/-! ## String, token and number lemmas -/

theorem takeWhile_app : ∀ (t : List Char) (r : List Char), '/' ∉ t →
    (t ++ '/' :: r).takeWhile (fun c => c ≠ '/') = t
  | [], r, _ => by
    rw [List.nil_append, List.takeWhile_cons_of_neg]
    decide
  | c :: cs, r, h => by
    have hc : ¬(c = '/') := fun hcc => h (by simp [hcc])
    have hcs : '/' ∉ cs := fun hm => h (by simp [hm])
    rw [List.cons_append, List.takeWhile_cons_of_pos (by exact decide_eq_true hc),
      takeWhile_app cs r hcs]

theorem takeWhile_all : ∀ (t : List Char), '/' ∉ t →
    t.takeWhile (fun c => c ≠ '/') = t
  | [], _ => rfl
  | c :: cs, h => by
    have hc : ¬(c = '/') := fun hcc => h (by simp [hcc])
    have hcs : '/' ∉ cs := fun hm => h (by simp [hm])
    rw [List.takeWhile_cons_of_pos (by exact decide_eq_true hc), takeWhile_all cs hcs]

theorem token_app (t r : List Char) (h : '/' ∉ t) (hlen : t.length < 256) :
    token (t ++ '/' :: r) = (t ++ '/' :: r, t.length) := by
  unfold token
  rw [takeWhile_app t r h, Nat.mod_eq_of_lt hlen]

theorem token_all (t : List Char) (h : '/' ∉ t) (hlen : t.length < 256) :
    token t = (t, t.length) := by
  unfold token
  rw [takeWhile_all t h, Nat.mod_eq_of_lt hlen]

theorem skip_pfx_loop_succ (fuel : Nat) (p pfx : List Char) :
    skip_pfx_loop (fuel + 1) p pfx =
      (match cmp_tokens (token p) (token pfx) with
       | none => none
       | some _ =>
         match skip_token (token pfx) with
         | none => skip_token (token p)
         | some pfx2 =>
           match skip_token (token p) with
           | none => none
           | some p2 => skip_pfx_loop fuel p2 pfx2) := rfl

theorem skip_pfx_compose (pfx rest : List Char) (h : '/' ∉ pfx) (hne : pfx ≠ [])
    (hlen : pfx.length < 256) (hr : rest ≠ []) :
    skip_pfx (pfx ++ '/' :: rest) pfx = some rest := by
  obtain ⟨c, cs, rfl⟩ := List.exists_cons_of_ne_nil hne
  have hc : ¬(c = '/') := fun hcc => h (by simp [hcc])
  unfold skip_pfx
  rw [show skip_separator (some (c :: cs ++ '/' :: rest))
        (some (c :: cs ++ '/' :: rest)) = some (c :: cs ++ '/' :: rest) by
      simp [skip_separator, hc]]
  rw [show skip_separator (some (c :: cs)) (some (c :: cs)) = some (c :: cs) by
      simp [skip_separator, hc]]
  simp only
  rw [skip_pfx_loop_succ]
  rw [token_app (c :: cs) rest h hlen, token_all (c :: cs) h hlen]
  unfold cmp_tokens
  rw [if_neg (by simp), if_pos (by rw [List.take_left, List.take_length])]
  simp only [skip_token, List.drop_length, List.drop_left]
  rw [show skip_separator (some ([] : List Char)) none = none from rfl]
  simp [skip_separator, hr]

theorem to_num_go_digits : ∀ (ds : List Char) (r : List Char) (acc : Nat),
    (∀ c ∈ ds, is_digit_char c = true) →
    to_num_go (ds ++ r) ds.length acc =
      (ds.foldl (fun a c => (a * 10 + (c.toNat - 48)) % 256) acc, r)
  | [], r, acc, _ => by simp [to_num_go]
  | c :: cs, r, acc, h => by
    have hc : is_digit_char c = true := h c (by simp)
    have hcs : ∀ x ∈ cs, is_digit_char x = true := fun x hx => h x (by simp [hx])
    simp only [List.cons_append, List.length_cons, to_num_go, hc, if_pos,
      List.append_eq]
    rw [to_num_go_digits cs r _ hcs]
    rfl

theorem foldl_mod (ds : List Char) : ∀ (a : Nat),
    ds.foldl (fun x c => (x * 10 + (c.toNat - 48)) % 256) (a % 256) =
      (ds.foldl (fun x c => x * 10 + (c.toNat - 48)) a) % 256 := by
  induction ds with
  | nil => intro a; simp
  | cons c cs ih =>
    intro a
    simp only [List.foldl_cons]
    have heq : (a % 256 * 10 + (c.toNat - 48)) % 256 =
        (a * 10 + (c.toNat - 48)) % 256 := by omega
    rw [heq]
    exact ih (a * 10 + (c.toNat - 48))

theorem to_num_digits (ds r : List Char) (h : ∀ c ∈ ds, is_digit_char c = true) :
    to_num (ds ++ r) ds.length = (dec_value ds % 256, r) := by
  unfold to_num dec_value
  rw [to_num_go_digits ds r 0 h]
  rw [show (0 : Nat) = 0 % 256 from rfl, foldl_mod]

theorem char_dig_toNat (m : Nat) (h : m < 10) : (Char.ofNat (48 + m)).toNat = 48 + m := by
  interval_cases m <;> decide

theorem char_dig_digit (m : Nat) (h : m < 10) : is_digit_char (Char.ofNat (48 + m)) = true := by
  interval_cases m <;> decide

theorem dec_go_spec : ∀ (fuel n : Nat), n < fuel →
    (∀ c ∈ dec_chars_go fuel n, is_digit_char c = true) ∧
    dec_chars_go fuel n ≠ [] ∧
    (∀ a : Nat, (dec_chars_go fuel n).foldl (fun x c => x * 10 + (c.toNat - 48)) a
       = a * 10 ^ (dec_chars_go fuel n).length + n)
  | 0, n, h => absurd h (by omega)
  | fuel + 1, n, h => by
    by_cases hn : n < 10
    · refine ⟨?_, ?_, ?_⟩ <;> simp only [dec_chars_go, if_pos hn]
      · intro c hc
        simp at hc
        subst hc
        exact char_dig_digit n hn
      · simp
      · intro a
        simp [char_dig_toNat n hn]
        try omega
    · have hdiv : n / 10 < fuel := by omega
      have ih := dec_go_spec fuel (n / 10) hdiv
      refine ⟨?_, ?_, ?_⟩ <;> simp only [dec_chars_go, if_neg hn]
      · intro c hc
        rw [List.mem_append] at hc
        rcases hc with hc | hc
        · exact ih.1 c hc
        · simp at hc
          subst hc
          exact char_dig_digit (n % 10) (by omega)
      · simp
      · intro a
        rw [List.foldl_append, ih.2.2 a]
        simp only [List.length_append, List.foldl_cons, List.foldl_nil,
          List.length_cons, List.length_nil]
        rw [char_dig_toNat (n % 10) (by omega)]
        rw [pow_succ]
        have : (a * 10 ^ (dec_chars_go fuel (n / 10)).length + n / 10) * 10 + (48 + n % 10 - 48)
            = a * (10 ^ (dec_chars_go fuel (n / 10)).length * 10) + (n / 10 * 10 + n % 10) := by
          ring_nf
          omega
        rw [this]
        omega

theorem dec_chars_digits (n : Nat) : ∀ c ∈ dec_chars n, is_digit_char c = true :=
  (dec_go_spec (n + 1) n (by omega)).1

theorem dec_chars_ne_nil (n : Nat) : dec_chars n ≠ [] :=
  (dec_go_spec (n + 1) n (by omega)).2.1

theorem dec_chars_value (n : Nat) : dec_value (dec_chars n) = n := by
  unfold dec_value dec_chars
  rw [(dec_go_spec (n + 1) n (by omega)).2.2 0]
  simp

theorem digit_ne_sep {c : Char} (h : is_digit_char c = true) : ¬(c = '/') := by
  intro hc
  subst hc
  exact absurd h (by decide)

theorem digits_no_sep {ds : List Char} (h : ∀ c ∈ ds, is_digit_char c = true) :
    '/' ∉ ds := fun hm => digit_ne_sep (h '/' hm) rfl

theorem parse_topic_str (t : Topic) : parse_topic (topic_str t) = t := by
  cases t <;> decide

theorem parse_topic_timer_app (suffix : List Char) :
    parse_topic (S_TIMER ++ suffix) = .TIMER := by
  show parse_topic ('t' :: ('i' :: 'm' :: 'e' :: 'r' :: suffix)) = .TIMER
  simp [parse_topic, S_TIMER_LEN, S_TIMER]

theorem parse_timer_topic_str {tt : TimerTopic}
    (htt : tt = .TIMER_TIME ∨ tt = .TIMER_MODE) :
    parse_timer_topic (timer_topic_str tt) = tt := by
  rcases htt with rfl | rfl <;> decide

theorem parse_tail_app (sm : Bool) (ds ts : List Char)
    (h : ∀ c ∈ ds, is_digit_char c = true) (hlen : ds.length < 256) :
    parse_tail sm (ds ++ '/' :: ts) =
      (if parse_topic ts = .INVALID_TOPIC then Path.empty
       else if parse_topic ts = .TIMER then
         parse_timer_tail (dec_value ds % 256) sm ts
       else ⟨dec_value ds % 256, 0, 0, parse_topic ts, .TIMER_NONE, sm⟩) := by
  simp only [parse_tail]
  rw [token_app ds ts (digits_no_sep h) hlen]
  simp only
  rw [to_num_digits ds ('/' :: ts) h]
  rfl

theorem parse_timer_tail_app (a : Nat) (sm : Bool) (dds sds ttl : List Char)
    (hd : ∀ c ∈ dds, is_digit_char c = true) (hdl : dds.length < 256)
    (hs : ∀ c ∈ sds, is_digit_char c = true) (hsl : sds.length < 256) :
    parse_timer_tail a sm (S_TIMER ++ '/' :: (dds ++ '/' :: (sds ++ '/' :: ttl))) =
      (if parse_timer_topic ttl = .INVALID_TIMER_TOPIC then Path.empty
       else ⟨a, dec_value dds % 256, dec_value sds % 256, .TIMER,
         parse_timer_topic ttl, sm⟩) := by
  simp only [parse_timer_tail]
  rw [token_app S_TIMER (dds ++ '/' :: (sds ++ '/' :: ttl)) (by decide) (by decide)]
  simp only
  rw [List.drop_left' (by decide)]
  simp only
  rw [token_app dds (sds ++ '/' :: ttl) (digits_no_sep hd) hdl]
  simp only
  rw [to_num_digits dds ('/' :: (sds ++ '/' :: ttl)) hd]
  simp only
  rw [token_app sds ttl (digits_no_sep hs) hsl]
  simp only
  rw [to_num_digits sds ('/' :: ttl) hs]
  rfl

theorem dec_chars_len_le2 (n : Nat) (h : n < 100) : (dec_chars n).length ≤ 2 := by
  interval_cases n <;> decide

theorem skip_token_app (t r : List Char) (h : r ≠ []) :
    skip_token (t ++ '/' :: r, t.length) = some r := by
  unfold skip_token
  rw [show (t ++ '/' :: r, t.length).1.drop (t ++ '/' :: r, t.length).2
      = '/' :: r from List.drop_left t ('/' :: r)]
  simp [skip_separator, h]

theorem parse_tail_round (sm : Bool) (a d s : Nat) (t : Topic) (tt : TimerTopic)
    (h1 : 1 ≤ a) (h2 : a ≤ 31)
    (ht : t ≠ .INVALID_TOPIC)
    (hnt : t ≠ .TIMER → d = 0 ∧ s = 0 ∧ tt = .TIMER_NONE)
    (htm : t = .TIMER → d < 8 ∧ s < 8 ∧ (tt = .TIMER_TIME ∨ tt = .TIMER_MODE)) :
    parse_tail sm (dec_chars a ++ '/' :: (topic_str t ++
      (if t = .TIMER then
        '/' :: (dec_chars d ++ '/' :: (dec_chars s ++ '/' :: timer_topic_str tt))
      else []))) = ⟨a, d, s, t, tt, sm⟩ := by
  have hda := dec_chars_digits a
  have hdla : (dec_chars a).length < 256 := by
    have := dec_chars_len_le2 a (by omega)
    omega
  by_cases htim : t = .TIMER
  · subst htim
    obtain ⟨hd8, hs8, htt⟩ := htm rfl
    rw [if_pos rfl]
    rw [parse_tail_app sm (dec_chars a) _ hda hdla]
    rw [show topic_str .TIMER = S_TIMER from rfl]
    rw [parse_topic_timer_app]
    rw [if_neg (by decide), if_pos rfl]
    rw [parse_timer_tail_app _ sm (dec_chars d) (dec_chars s) (timer_topic_str tt)
        (dec_chars_digits d) (by have := dec_chars_len_le2 d (by omega); omega)
        (dec_chars_digits s) (by have := dec_chars_len_le2 s (by omega); omega)]
    rw [parse_timer_topic_str htt]
    rw [if_neg (by rcases htt with rfl | rfl <;> decide)]
    rw [dec_chars_value a, dec_chars_value d, dec_chars_value s]
    rw [Nat.mod_eq_of_lt (by omega), Nat.mod_eq_of_lt (by omega),
      Nat.mod_eq_of_lt (by omega)]
  · obtain ⟨rfl, rfl, rfl⟩ := hnt htim
    rw [if_neg htim, List.append_nil]
    rw [parse_tail_app sm (dec_chars a) _ hda hdla]
    rw [parse_topic_str t]
    rw [if_neg ht, if_neg htim]
    rw [dec_chars_value a, Nat.mod_eq_of_lt (by omega)]

theorem parse_compose_round (pfx : List Char) (p : Path)
    (hp : '/' ∉ pfx) (hne : pfx ≠ []) (hplen : pfx.length < 256)
    (h1 : 1 ≤ p.addr) (h2 : p.addr ≤ 31)
    (ht : p.topic ≠ .INVALID_TOPIC)
    (hnt : p.topic ≠ .TIMER → p.day = 0 ∧ p.slot = 0 ∧ p.timer_topic = .TIMER_NONE)
    (htm : p.topic = .TIMER → p.day < 8 ∧ p.slot < 8 ∧
      (p.timer_topic = .TIMER_TIME ∨ p.timer_topic = .TIMER_MODE)) :
    parse pfx (compose pfx p) = p := by
  obtain ⟨a, d, s, t, tt, sm⟩ := p
  dsimp only at h1 h2 ht hnt htm
  have hda := dec_chars_digits a
  have hdla : (dec_chars a).length < 256 := by
    have := dec_chars_len_le2 a (by omega)
    omega
  have hle2 := dec_chars_len_le2 a (by omega)
  have hne2 : dec_chars a ++ '/' :: (topic_str t ++
      (if t = .TIMER then
        '/' :: (dec_chars d ++ '/' :: (dec_chars s ++ '/' :: timer_topic_str tt))
      else [])) ≠ [] := by
    simp [dec_chars_ne_nil a]
  cases sm
  case false =>
    unfold compose parse
    dsimp only
    rw [if_neg (by simp)]
    simp only [List.cons_append, List.append_assoc, List.nil_append]
    rw [skip_pfx_compose pfx _ hp hne hplen hne2]
    dsimp only
    rw [if_neg hne2]
    rw [token_app (dec_chars a) _ (digits_no_sep hda) hdla]
    unfold cmp_tokens
    rw [if_pos (by dsimp only; omega)]
    exact parse_tail_round false a d s t tt h1 h2 ht hnt htm
  case true =>
    unfold compose parse
    dsimp only
    rw [if_pos rfl]
    simp only [List.cons_append, List.append_assoc, List.nil_append]
    rw [skip_pfx_compose pfx _ hp hne hplen (by simp)]
    dsimp only
    rw [if_neg (by simp)]
    rw [token_app S_SET_MODE _ (by decide) (by decide)]
    unfold cmp_tokens
    rw [if_neg (by dsimp only; decide)]
    rw [if_pos (by
      rw [show (S_SET_MODE ++ '/' :: (dec_chars a ++ '/' :: (topic_str t ++
          (if t = .TIMER then
            '/' :: (dec_chars d ++ '/' :: (dec_chars s ++ '/' :: timer_topic_str tt))
          else []))), S_SET_MODE.length).1.take
          (S_SET_MODE ++ '/' :: (dec_chars a ++ '/' :: (topic_str t ++
          (if t = .TIMER then
            '/' :: (dec_chars d ++ '/' :: (dec_chars s ++ '/' :: timer_topic_str tt))
          else []))), S_SET_MODE.length).2 = S_SET_MODE from
        List.take_left S_SET_MODE _]
      decide)]
    dsimp only
    rw [skip_token_app S_SET_MODE _ hne2]
    exact parse_tail_round true a d s t tt h1 h2 ht hnt htm

theorem to_num_go_lt : ∀ (p : List Char) (cnt res : Nat), res < 256 →
    (to_num_go p cnt res).1 < 256
  | p, 0, _, h => by cases p <;> exact h
  | [], _ + 1, _, h => h
  | c :: cs, cnt + 1, res, h => by
    unfold to_num_go
    split_ifs
    · exact to_num_go_lt cs cnt _ (Nat.mod_lt _ (by omega))
    · exact h

theorem to_num_lt (p : List Char) (cnt : Nat) : (to_num p cnt).1 < 256 :=
  to_num_go_lt p cnt 0 (by omega)

theorem parse_timer_topic_cases (s : List Char) :
    parse_timer_topic s = .TIMER_TIME ∨ parse_timer_topic s = .TIMER_MODE ∨
      parse_timer_topic s = .INVALID_TIMER_TOPIC := by
  unfold parse_timer_topic
  cases s with
  | nil => simp
  | cons c cs =>
    by_cases h1 : c = 't'
    · simp only [if_pos h1]
      split_ifs <;> simp
    · simp only [if_neg h1]
      by_cases h2 : c = 'm'
      · simp only [if_pos h2]
        split_ifs <;> simp
      · simp [h2]

theorem parse_timer_tail_shape (a : Nat) (sm : Bool) (pos : List Char) :
    parse_timer_tail a sm pos = Path.empty ∨
      ∃ d s tt, (tt = TimerTopic.TIMER_TIME ∨ tt = TimerTopic.TIMER_MODE) ∧
        d < 256 ∧ s < 256 ∧
        parse_timer_tail a sm pos = ⟨a, d, s, .TIMER, tt, sm⟩ := by
  simp only [parse_timer_tail]
  split
  · split
    · split
      · split_ifs with hinv
        · left; rfl
        · right
          rcases parse_timer_topic_cases _ with h | h | h
          · exact ⟨_, _, _, Or.inl h, to_num_lt _ _, to_num_lt _ _, by rw [h]⟩
          · exact ⟨_, _, _, Or.inr h, to_num_lt _ _, to_num_lt _ _, by rw [h]⟩
          · exact absurd h hinv
      · left; rfl
    · left; rfl
  · left; rfl

theorem parse_tail_shape (sm : Bool) (pos : List Char) :
    parse_tail sm pos = Path.empty ∨
      (∃ a t, t ≠ Topic.INVALID_TOPIC ∧ t ≠ Topic.TIMER ∧ a < 256 ∧
        parse_tail sm pos = ⟨a, 0, 0, t, .TIMER_NONE, sm⟩) ∨
      (∃ a d s tt, (tt = TimerTopic.TIMER_TIME ∨ tt = TimerTopic.TIMER_MODE) ∧
        a < 256 ∧ d < 256 ∧ s < 256 ∧
        parse_tail sm pos = ⟨a, d, s, .TIMER, tt, sm⟩) := by
  simp only [parse_tail]
  split
  · split_ifs with hinv htim
    · left; rfl
    · rcases parse_timer_tail_shape (to_num pos (token pos).2).1 sm _ with h | ⟨d, s, tt, htt, hd, hs, h⟩
      · left; exact h
      · right; right
        exact ⟨_, d, s, tt, htt, to_num_lt _ _, hd, hs, h⟩
    · right; left
      exact ⟨_, _, hinv, htim, to_num_lt _ _, rfl⟩
  · left; rfl

theorem parse_shape (pfx s : List Char) :
    parse pfx s = Path.empty ∨
      (∃ a t sm, t ≠ Topic.INVALID_TOPIC ∧ t ≠ Topic.TIMER ∧ a < 256 ∧
        parse pfx s = ⟨a, 0, 0, t, .TIMER_NONE, sm⟩) ∨
      (∃ a d s2 tt sm, (tt = TimerTopic.TIMER_TIME ∨ tt = TimerTopic.TIMER_MODE) ∧
        a < 256 ∧ d < 256 ∧ s2 < 256 ∧
        parse pfx s = ⟨a, d, s2, .TIMER, tt, sm⟩) := by
  simp only [parse]
  split
  · left; rfl
  · split_ifs
    · left; rfl
    · split
      · split
        · left; rfl
        · rcases parse_tail_shape true _ with h | ⟨a, t, h1, h2, h3, h⟩ | ⟨a, d, s2, tt, htt, h1, h2, h3, h⟩
          · left; exact h
          · right; left; exact ⟨a, t, true, h1, h2, h3, h⟩
          · right; right; exact ⟨a, d, s2, tt, true, htt, h1, h2, h3, h⟩
      · rcases parse_tail_shape false _ with h | ⟨a, t, h1, h2, h3, h⟩ | ⟨a, d, s2, tt, htt, h1, h2, h3, h⟩
        · left; exact h
        · right; left; exact ⟨a, t, false, h1, h2, h3, h⟩
        · right; right; exact ⟨a, d, s2, tt, false, htt, h1, h2, h3, h⟩

theorem skip_separator_some_lt {l r : List Char}
    (h : skip_separator (some l) none = some r) : r.length < l.length := by
  cases l with
  | nil => exact absurd h (by simp [skip_separator])
  | cons c rest =>
    simp only [skip_separator] at h
    split_ifs at h <;> cases h <;> simp

theorem skip_token_token_lt {pfx pfx2 : List Char}
    (h : skip_token (token pfx) = some pfx2) : pfx2.length < pfx.length := by
  unfold skip_token at h
  have h1 := skip_separator_some_lt h
  have h2 : ((token pfx).1.drop (token pfx).2).length ≤ pfx.length := by
    unfold token
    simp
  omega

theorem skip_pfx_loop_fuel : ∀ (f g : Nat) (p pfx : List Char),
    pfx.length < f → pfx.length < g →
    skip_pfx_loop f p pfx = skip_pfx_loop g p pfx
  | 0, _, _, _, hf, _ => absurd hf (by omega)
  | _ + 1, 0, _, _, _, hg => absurd hg (by omega)
  | f + 1, g + 1, p, pfx, hf, hg => by
    rw [skip_pfx_loop_succ f p pfx, skip_pfx_loop_succ g p pfx]
    cases hcmp : cmp_tokens (token p) (token pfx) with
    | none => rfl
    | some val =>
      cases hst : skip_token (token pfx) with
      | none => rfl
      | some pfx2 =>
        cases hsp : skip_token (token p) with
        | none => rfl
        | some p2 =>
          have hlt := skip_token_token_lt hst
          exact skip_pfx_loop_fuel f g p2 pfx2 (by omega) (by omega)

theorem skip_separator_self (l : List Char) (h : '/' ∉ l) :
    skip_separator (some l) (some l) = some l := by
  cases l with
  | nil => rfl
  | cons c cs =>
    have hc : ¬(c = '/') := fun hcc => h (by simp [hcc])
    simp [skip_separator, hc]

/-- C3 (counterexample): the parser happily returns a timer `Path` with
`day = 9 ≥ 8`: the day and slot tokens are only narrowed modulo 256, never
range-checked. -/
theorem C3_timer_path_bounds_counterexample :
    (parse "hr20".toList "hr20/5/timer/9/0/mode".toList).topic = .TIMER ∧
    (parse "hr20".toList "hr20/5/timer/9/0/mode".toList).valid = true ∧
    8 ≤ (parse "hr20".toList "hr20/5/timer/9/0/mode".toList).day := by
  decide

/-- C3 (amended): every timer `Path` the parser returns carries a
`timer_topic` resolved to TIME or MODE, and `day` and `slot` below 256 (the
uint8 accumulator bound) — but not necessarily below 8. -/
theorem C3_timer_path_fields_amended (pfx s : List Char)
    (h : (parse pfx s).topic = .TIMER) :
    ((parse pfx s).timer_topic = .TIMER_TIME ∨
      (parse pfx s).timer_topic = .TIMER_MODE) ∧
    (parse pfx s).day < 256 ∧ (parse pfx s).slot < 256 := by
  rcases parse_shape pfx s with h0 | ⟨a, t, sm, h1, h2, h3, heq⟩ |
    ⟨a, d, s2, tt, sm, htt, h1, h2, h3, heq⟩
  · rw [h0] at h
    exact absurd h (by decide)
  · rw [heq] at h
    exact absurd h h2
  · rw [heq]
    exact ⟨htt, h2, h3⟩

theorem C3_timer_path_fields_amended_witness :
    (parse "hr20".toList "hr20/5/timer/9/0/time".toList).topic = .TIMER ∧
    (((parse "hr20".toList "hr20/5/timer/9/0/time".toList).timer_topic = .TIMER_TIME ∨
      (parse "hr20".toList "hr20/5/timer/9/0/time".toList).timer_topic = .TIMER_MODE) ∧
     (parse "hr20".toList "hr20/5/timer/9/0/time".toList).day < 256 ∧
     (parse "hr20".toList "hr20/5/timer/9/0/time".toList).slot < 256) :=
  ⟨by decide, C3_timer_path_fields_amended "hr20".toList "hr20/5/timer/9/0/time".toList (by decide)⟩

/-- C4: `Path::parse` succeeds completely or fails completely: every failure
path yields the default `Path` (address 0, hence invalid); any other result
has a resolved topic, a resolved TIME/MODE sub-topic when the topic is TIMER,
and untouched day/slot/sub-topic defaults when it is not. -/
theorem C4_parse_all_or_nothing (pfx s : List Char) :
    parse pfx s = Path.empty ∨
      ((parse pfx s).topic ≠ .INVALID_TOPIC ∧
       ((parse pfx s).topic = .TIMER →
         ((parse pfx s).timer_topic = .TIMER_TIME ∨
          (parse pfx s).timer_topic = .TIMER_MODE)) ∧
       ((parse pfx s).topic ≠ .TIMER →
         (parse pfx s).timer_topic = .TIMER_NONE ∧
         (parse pfx s).day = 0 ∧ (parse pfx s).slot = 0)) := by
  rcases parse_shape pfx s with h0 | ⟨a, t, sm, h1, h2, h3, heq⟩ |
    ⟨a, d, s2, tt, sm, htt, h1, h2, h3, heq⟩
  · left
    exact h0
  · right
    rw [heq]
    exact ⟨h1, fun ht => absurd ht h2, fun _ => ⟨rfl, rfl, rfl⟩⟩
  · right
    rw [heq]
    exact ⟨fun hcon => Topic.noConfusion hcon, fun _ => htt, fun ht => absurd rfl ht⟩

/-- C6: an unknown topic name after a well-formed prefix/address yields the
wholly-invalid Path (topic INVALID, not valid), and a topic under the wrong
prefix yields address 0. -/
theorem C6_rejection (pfx : List Char) (hp : '/' ∉ pfx) (hne : pfx ≠ [])
    (hlen : pfx.length < 256) :
    ((parse pfx (pfx ++ '/' :: ("99".toList ++ '/' :: "zzz".toList))).topic
        = .INVALID_TOPIC ∧
     (parse pfx (pfx ++ '/' :: ("99".toList ++ '/' :: "zzz".toList))).valid
        = false) ∧
    (pfx ≠ "wrongprefix".toList →
      (parse pfx "wrongprefix/5/lock".toList).addr = 0) := by
  constructor
  · unfold parse
    rw [skip_pfx_compose pfx _ hp hne hlen (by decide)]
    dsimp only
    rw [if_neg (by decide)]
    rw [token_app "99".toList _ (by decide) (by decide)]
    unfold cmp_tokens
    rw [if_pos (by dsimp only; decide)]
    rw [parse_tail_app false "99".toList "zzz".toList (by decide) (by decide)]
    rw [show parse_topic "zzz".toList = .INVALID_TOPIC from by decide]
    rw [if_pos rfl]
    exact ⟨rfl, rfl⟩
  · intro hwr
    have hskip : skip_pfx "wrongprefix/5/lock".toList pfx = none := by
      unfold skip_pfx
      rw [show skip_separator (some "wrongprefix/5/lock".toList)
            (some "wrongprefix/5/lock".toList)
          = some "wrongprefix/5/lock".toList from by decide]
      rw [skip_separator_self pfx hp]
      dsimp only
      rw [show skip_pfx_loop (pfx.length + 1) "wrongprefix/5/lock".toList pfx
          = skip_pfx_loop (pfx.length + 1) "wrongprefix/5/lock".toList pfx from rfl]
      cases hf : pfx.length + 1 with
      | zero => exact absurd hf (by omega)
      | succ f =>
        rw [skip_pfx_loop_succ]
        rw [show token "wrongprefix/5/lock".toList
            = ("wrongprefix/5/lock".toList, 11) from by decide]
        rw [token_all pfx hp hlen]
        unfold cmp_tokens
        by_cases h11 : (11 : Nat) = pfx.length
        · rw [if_neg (by dsimp only; omega)]
          rw [if_neg (by
            dsimp only
            rw [show ("wrongprefix/5/lock".toList).take 11
                = "wrongprefix".toList from by decide]
            rw [List.take_length]
            exact fun he => hwr he.symm)]
        · rw [if_pos (by dsimp only; omega)]
    unfold parse
    rw [hskip]
    rfl

set_option maxHeartbeats 1000000 in
/-- C9: the `timer` topic is matched on its first five characters only
(every segment starting "timer" resolves to TIMER and proceeds into the
day/slot grammar), while every other topic name requires an exact
full-segment match. -/
theorem C9_timer_five_char_match :
    (∀ suffix : List Char, parse_topic (S_TIMER ++ suffix) = .TIMER) ∧
    (∀ (s : List Char) (t : Topic), t ≠ .TIMER → t ≠ .INVALID_TOPIC →
      (parse_topic s = t ↔ s = topic_str t)) ∧
    parse "hr20".toList "hr20/1/timerXYZ/2/3/time".toList =
      ⟨1, 2, 3, .TIMER, .TIMER_TIME, false⟩ := by
  refine ⟨parse_topic_timer_app, ?_, by decide⟩
  intro s t ht hinv
  constructor
  · intro hp
    cases s with
    | nil =>
      exact absurd hp.symm hinv
    | cons c cs =>
      simp only [parse_topic] at hp
      split_ifs at hp <;>
        first
        | exact absurd hp.symm hinv
        | exact absurd hp.symm ht
        | (subst hp; assumption)
  · intro hs
    subst hs
    exact parse_topic_str t

/-- C10: the address segment is parsed into a uint8 accumulator with
wrap-around modulo 256 and no range check: any digit token of numeric value
v yields address v mod 256; "257" gives a valid Path with address 1, "256"
gives address 0, reported invalid. -/
theorem C10_addr_wraps_mod256 :
    (∀ ds : List Char, ds ≠ [] → (∀ c ∈ ds, is_digit_char c = true) →
      ds.length < 256 →
      parse "hr20".toList ("hr20".toList ++ '/' :: (ds ++ '/' :: "mode".toList)) =
        ⟨dec_value ds % 256, 0, 0, .MODE, .TIMER_NONE, false⟩) ∧
    parse "hr20".toList "hr20/257/mode".toList = ⟨1, 0, 0, .MODE, .TIMER_NONE, false⟩ ∧
    (parse "hr20".toList "hr20/257/mode".toList).valid = true ∧
    parse "hr20".toList "hr20/256/mode".toList = ⟨0, 0, 0, .MODE, .TIMER_NONE, false⟩ ∧
    (parse "hr20".toList "hr20/256/mode".toList).valid = false := by
  refine ⟨?_, by decide, by decide, by decide, by decide⟩
  intro ds hne hdig hlen
  have hset : ds ≠ S_SET_MODE := by
    intro he
    have hm := hdig 's' (by rw [he]; decide)
    exact absurd hm (by decide)
  have key : parse_tail false (ds ++ '/' :: "mode".toList) =
      ⟨dec_value ds % 256, 0, 0, .MODE, .TIMER_NONE, false⟩ := by
    rw [parse_tail_app false ds _ hdig hlen]
    rw [show parse_topic "mode".toList = .MODE from by decide]
    rw [if_neg (by decide), if_neg (by decide)]
  unfold parse
  rw [skip_pfx_compose "hr20".toList _ (by decide) (by decide) (by decide)
    (by simp [hne])]
  dsimp only
  rw [if_neg (by simp [hne])]
  rw [token_app ds _ (digits_no_sep hdig) hlen]
  unfold cmp_tokens
  by_cases h3 : ds.length = 3
  · rw [if_neg (by dsimp only; omega)]
    rw [if_neg (by
      dsimp only
      rw [List.take_left, show S_SET_MODE.take 3 = S_SET_MODE from by decide]
      exact hset)]
    exact key
  · rw [if_pos (by dsimp only; omega)]
    exact key

/-- C2: round trip — for every valid Path (address 1..31, a real topic,
timer coordinates and sub-topic present exactly for TIMER paths), parsing
the composed topic string yields the Path back, for any sane configured
prefix (non-empty, shorter than 256 bytes, without a separator). -/
theorem C2_parse_compose_roundtrip (pfx : List Char) (p : Path)
    (hp : '/' ∉ pfx) (hne : pfx ≠ []) (hplen : pfx.length < 256)
    (h1 : 1 ≤ p.addr) (h2 : p.addr ≤ 31)
    (ht : p.topic ≠ .INVALID_TOPIC)
    (hnt : p.topic ≠ .TIMER → p.day = 0 ∧ p.slot = 0 ∧ p.timer_topic = .TIMER_NONE)
    (htm : p.topic = .TIMER → p.day < 8 ∧ p.slot < 8 ∧
      (p.timer_topic = .TIMER_TIME ∨ p.timer_topic = .TIMER_MODE)) :
    parse pfx (compose pfx p) = p :=
  parse_compose_round pfx p hp hne hplen h1 h2 ht hnt htm

theorem C2_parse_compose_roundtrip_witness :
    ('/' ∉ "hr20".toList ∧ "hr20".toList ≠ [] ∧ "hr20".toList.length < 256 ∧
     1 ≤ (Path.mk 5 3 2 .TIMER .TIMER_TIME true).addr ∧
     (Path.mk 5 3 2 .TIMER .TIMER_TIME true).addr ≤ 31) ∧
    parse "hr20".toList (compose "hr20".toList ⟨5, 3, 2, .TIMER, .TIMER_TIME, true⟩) =
      ⟨5, 3, 2, .TIMER, .TIMER_TIME, true⟩ :=
  ⟨⟨by decide, by decide, by decide, by decide, by decide⟩,
    C2_parse_compose_roundtrip "hr20".toList ⟨5, 3, 2, .TIMER, .TIMER_TIME, true⟩
      (by decide) (by decide) (by decide) (by decide) (by decide) (by decide)
      (by decide) (by decide)⟩

theorem C6_rejection_witness :
    ('/' ∉ "hr20".toList ∧ "hr20".toList ≠ [] ∧ "hr20".toList.length < 256) ∧
    (((parse "hr20".toList ("hr20".toList ++ '/' :: ("99".toList ++ '/' :: "zzz".toList))).topic
        = .INVALID_TOPIC ∧
      (parse "hr20".toList ("hr20".toList ++ '/' :: ("99".toList ++ '/' :: "zzz".toList))).valid
        = false) ∧
     ("hr20".toList ≠ "wrongprefix".toList →
       (parse "hr20".toList "wrongprefix/5/lock".toList).addr = 0)) :=
  ⟨⟨by decide, by decide, by decide⟩,
    C6_rejection "hr20".toList (by decide) (by decide) (by decide)⟩


/-! ## Scheduler, dispatcher and connection lemmas -/

theorem cursor_ne (w' w : World)
    (h : w'.pub.addr ≠ w.pub.addr ∨ w'.pub.state_maj ≠ w.pub.state_maj ∨
      w'.pub.state_min ≠ w.pub.state_min) : cursor w' ≠ cursor w := by
  intro he
  unfold cursor at he
  simp only [Prod.mk.injEq] at he
  rcases h with h | h | h <;> exact h (by tauto)

theorem next_client_addr_ne (s : PubState) : (next_client s).addr ≠ s.addr := by
  unfold next_client MAX_HR_ADDR
  dsimp only
  split_ifs with h <;> omega

theorem next_major_one_addr_ne (s : PubState) (h : s.state_maj = 1) :
    (next_major s).addr ≠ s.addr := by
  unfold next_major
  rw [h]
  dsimp only
  rw [if_pos (by omega)]
  exact next_client_addr_ne _

theorem next_major_zero_maj_ne (s : PubState) (h : s.state_maj = 0) :
    (next_major s).state_maj ≠ s.state_maj := by
  unfold next_major
  rw [h]
  dsimp only
  rw [if_neg (by omega)]
  dsimp only
  omega

theorem freq_step_count (ok : Bool) (w : World) (t : Topic) (v : CachedValue)
    (upd : CachedValue → HRDevice) : (freq_step ok w t v upd).2.1 ≤ 1 := by
  unfold freq_step publish_value
  split_ifs <;> simp

theorem freq_step_cursor (ok : Bool) (w : World) (t : Topic) (v : CachedValue)
    (upd : CachedValue → HRDevice) :
    cursor (freq_step ok w t v upd).1 ≠ cursor w := by
  apply cursor_ne
  right; right
  unfold freq_step publish_value
  split_ifs <;> (dsimp only; omega)

theorem publish_timer_slot_count (ok0 ok1 : Bool) (hint : Nat) (v : CachedValue) :
    (publish_timer_slot ok0 ok1 hint v).2.1 ≤ 2 := by
  unfold publish_timer_slot
  split_ifs <;> simp

/-- C1 (counterexample): a state whose current address has a non-empty
change mask (the frequent bit set) but no device in the model: the tick
performs no publish attempt and leaves the scheduler cursor exactly where it
was — the cursor does not advance to its successor. -/
theorem C1_bounded_tick_counterexample :
    getState (World.mk ⟨(List.replicate 32 0).set 0 1, 0, 0, 0⟩
        (List.replicate 32 none)).pub ≠ 0 ∧
    (World.mk ⟨(List.replicate 32 0).set 0 1, 0, 0, 0⟩
        (List.replicate 32 none)).pub.state_maj = 0 ∧
    (update (fun _ => true) (World.mk ⟨(List.replicate 32 0).set 0 1, 0, 0, 0⟩
        (List.replicate 32 none))).2.1 = 0 ∧
    cursor (update (fun _ => true)
        (World.mk ⟨(List.replicate 32 0).set 0 1, 0, 0, 0⟩
          (List.replicate 32 none))).1 =
      cursor (World.mk ⟨(List.replicate 32 0).set 0 1, 0, 0, 0⟩
        (List.replicate 32 none)) := by
  decide

/-- C1 (amended): when the device model has an entry for the current
address, a tick over a non-empty change mask performs at most one publish
attempt in the FREQUENT state and at most two in the TIMER state, and always
moves the cursor.  Without a device entry the walks return early and the
cursor can stall (see the counterexample). -/
theorem C1_bounded_tick_amended (oracle : Nat → Bool) (w : World) (hr : HRDevice)
    (hmask : getState w.pub ≠ 0)
    (hdev : w.model.getD w.pub.addr none = some hr) :
    (w.pub.state_maj = 0 → (update oracle w).2.1 ≤ 1) ∧
    (w.pub.state_maj = 1 → (update oracle w).2.1 ≤ 2) ∧
    cursor (update oracle w).1 ≠ cursor w := by
  unfold update
  rw [if_neg hmask]
  rcases hm : w.pub.state_maj with _ | _ | m
  · -- STM_FREQ
    dsimp only
    unfold publish_frequent
    by_cases hfreq : getState w.pub &&& CHANGE_FREQUENT = 0
    · rw [if_pos hfreq]
      refine ⟨fun _ => by simp, fun hc => absurd hc (by omega), ?_⟩
      apply cursor_ne
      right; left
      exact next_major_zero_maj_ne _ hm
    · rw [if_neg hfreq, hdev]
      dsimp only
      rcases hmin : w.pub.state_min with _ | _ | _ | _ | _ | _ | _ | _ | _ | m2
      · exact ⟨fun _ => freq_step_count _ _ _ _ _, fun hc => absurd hc (by omega),
          freq_step_cursor _ _ _ _ _⟩
      · exact ⟨fun _ => freq_step_count _ _ _ _ _, fun hc => absurd hc (by omega),
          freq_step_cursor _ _ _ _ _⟩
      · exact ⟨fun _ => freq_step_count _ _ _ _ _, fun hc => absurd hc (by omega),
          freq_step_cursor _ _ _ _ _⟩
      · exact ⟨fun _ => freq_step_count _ _ _ _ _, fun hc => absurd hc (by omega),
          freq_step_cursor _ _ _ _ _⟩
      · exact ⟨fun _ => freq_step_count _ _ _ _ _, fun hc => absurd hc (by omega),
          freq_step_cursor _ _ _ _ _⟩
      · exact ⟨fun _ => freq_step_count _ _ _ _ _, fun hc => absurd hc (by omega),
          freq_step_cursor _ _ _ _ _⟩
      · exact ⟨fun _ => freq_step_count _ _ _ _ _, fun hc => absurd hc (by omega),
          freq_step_cursor _ _ _ _ _⟩
      · exact ⟨fun _ => freq_step_count _ _ _ _ _, fun hc => absurd hc (by omega),
          freq_step_cursor _ _ _ _ _⟩
      · -- state 8: last_seen, unconditional single publish
        refine ⟨fun _ => by simp, fun hc => absurd hc (by omega), ?_⟩
        apply cursor_ne
        right; right
        dsimp only
        omega
      · -- default: clear the frequent bit, next_major
        refine ⟨fun _ => by simp, fun hc => absurd hc (by omega), ?_⟩
        apply cursor_ne
        right; left
        exact next_major_zero_maj_ne _ hm
  · -- STM_TIMER
    dsimp only
    unfold publish_timers
    rw [hdev]
    dsimp only
    by_cases htm : getState w.pub &&& CHANGE_TIMER_MASK = 0
    · rw [if_pos htm]
      refine ⟨fun hc => absurd hc (by omega), fun _ => by simp, ?_⟩
      apply cursor_ne
      left
      exact next_major_one_addr_ne _ hm
    · rw [if_neg htm]
      by_cases hday : 8 ≤ w.pub.state_min >>> 3
      · rw [if_pos hday]
        refine ⟨fun hc => absurd hc (by omega), fun _ => by simp, ?_⟩
        apply cursor_ne
        left
        exact next_major_one_addr_ne _ hm
      · rw [if_neg hday]
        by_cases hbit : (1 <<< (w.pub.state_min >>> 3)) &&&
            change_get_timer_mask (getState w.pub) = 0
        · rw [if_pos hbit]
          refine ⟨fun hc => absurd hc (by omega), fun _ => by simp, ?_⟩
          apply cursor_ne
          right; right
          dsimp only
          omega
        · rw [if_neg hbit]
          dsimp only
          refine ⟨fun hc => absurd hc (by omega),
            fun _ => publish_timer_slot_count _ _ _ _, ?_⟩
          apply cursor_ne
          right; right
          split_ifs with hslot
          · dsimp only [setState]
            omega
          · dsimp only
            omega
  · -- state_maj past STM_NEXT_CLIENT
    refine ⟨fun hc => absurd hc (by omega), fun hc => absurd hc (by omega), ?_⟩
    apply cursor_ne
    left
    exact next_client_addr_ne _

theorem testBit_of_shl_and_ne {k m : Nat} (h : (1 <<< k) &&& m ≠ 0) :
    m.testBit k = true := by
  by_contra hbit0
  apply h
  apply Nat.eq_of_testBit_eq
  intro i
  simp only [Nat.testBit_and, Nat.zero_testBit]
  rw [Nat.shiftLeft_eq, one_mul]
  by_cases hik : k = i
  · subst hik
    rw [Bool.not_eq_true] at hbit0
    simp [hbit0]
  · rw [Nat.testBit_two_pow_of_ne hik]
    simp

theorem day_bit_of_mask {st day : Nat}
    (h : (1 <<< day) &&& change_get_timer_mask st ≠ 0) :
    st.testBit (1 + day) = true := by
  have h1 := testBit_of_shl_and_ne h
  unfold change_get_timer_mask at h1
  rw [Nat.testBit_and, Nat.testBit_shiftRight] at h1
  rw [show (255 : Nat) = 2 ^ 8 - 1 from rfl, Nat.testBit_two_pow_sub_one,
    Bool.and_eq_true] at h1
  exact h1.1

theorem timer_mask_nonzero {st day : Nat} (hday : day < 8)
    (h : st.testBit (1 + day) = true) : st &&& CHANGE_TIMER_MASK ≠ 0 := by
  intro h0
  have hb := congrArg (fun n => n.testBit (1 + day)) h0
  simp only [Nat.testBit_and, Nat.zero_testBit] at hb
  rw [h] at hb
  have h510 : (CHANGE_TIMER_MASK).testBit (1 + day) = true := by
    unfold CHANGE_TIMER_MASK
    interval_cases day <;> decide
  rw [h510] at hb
  simp at hb

theorem clear_bit_and (st day : Nat) (hday : day < 8) :
    (st &&& (0xFFFFFFFF ^^^ timer_day_2_change day)) &&& timer_day_2_change day
      = 0 := by
  rw [Nat.and_assoc]
  have hz : (0xFFFFFFFF ^^^ timer_day_2_change day) &&& timer_day_2_change day
      = 0 := by
    unfold timer_day_2_change
    interval_cases day <;> decide
  rw [hz, Nat.and_zero]

theorem getState_setState (s : PubState) (v : Nat) (h : s.addr < s.states.length) :
    getState (setState s v) = v := by
  unfold getState setState
  dsimp only
  rw [List.getD_eq_getElem?_getD, List.getElem?_set_self h, Option.getD_some]

theorem getD_some_lt {l : List (Option HRDevice)} {i : Nat} {x : HRDevice}
    (h : l.getD i none = some x) : i < l.length := by
  by_contra hc
  rw [List.getD_eq_getElem?_getD, List.getElem?_eq_none (by omega)] at h
  simp at h

theorem getD_set_self {α : Type} {l : List α} {i : Nat} (a d : α)
    (h : i < l.length) : (l.set i a).getD i d = a := by
  rw [List.getD_eq_getElem?_getD, List.getElem?_set_self h, Option.getD_some]

/-- C5: in the timer walk, transport failure does not prevent retirement of
pending state: at slot 7 the day's change bit is cleared, and an unpublished,
remotely-valid timer slot is marked published after its two publish attempts,
in both cases whatever the two transport verdicts (`oracle`) are. -/
theorem C5_timer_retirement (oracle : Nat → Bool) (w : World) (hr : HRDevice)
    (day : Nat)
    (hdev : w.model.getD w.pub.addr none = some hr)
    (hlen : w.pub.addr < w.pub.states.length)
    (htlen : day < hr.timers.length)
    (hrow : (hr.timers.getD day []).length = 8)
    (hmin : w.pub.state_min = day * 8 + 7)
    (hday : day < 8)
    (hbit : (1 <<< day) &&& change_get_timer_mask (getState w.pub) ≠ 0) :
    getState (publish_timers oracle w).1.pub &&& timer_day_2_change day = 0 ∧
    (((hr.timers.getD day []).getD 7 ⟨false, false⟩).published = false →
     ((hr.timers.getD day []).getD 7 ⟨false, false⟩).remote_valid = true →
     (publish_timers oracle w).2.1 = 2 ∧
     ∃ hr2, (publish_timers oracle w).1.model.getD w.pub.addr none = some hr2 ∧
       ((hr2.timers.getD day []).getD 7 ⟨false, false⟩).published = true) := by
  have hdaymin : w.pub.state_min >>> 3 = day := by
    rw [hmin, Nat.shiftRight_eq_div_pow]
    norm_num
    omega
  have hslotmin : w.pub.state_min &&& 7 = 7 := by
    have h73 := Nat.and_pow_two_sub_one_eq_mod w.pub.state_min 3
    norm_num at h73
    rw [h73, hmin]
    omega
  have hmask0 : getState w.pub &&& CHANGE_TIMER_MASK ≠ 0 :=
    timer_mask_nonzero hday (day_bit_of_mask hbit)
  have hmlen : w.pub.addr < w.model.length := getD_some_lt hdev
  unfold publish_timers
  rw [hdev]
  dsimp only
  rw [if_neg hmask0, hdaymin, hslotmin]
  rw [if_neg (show ¬(8 ≤ day) by omega), if_neg hbit, if_pos rfl]
  constructor
  · exact (getState_setState _ _ hlen).symm ▸ clear_bit_and (getState w.pub) day hday
  · intro hpub hval
    unfold publish_timer_slot
    rw [hpub, hval]
    rw [if_pos (by decide)]
    dsimp only
    refine ⟨rfl, _, getD_set_self _ none hmlen, ?_⟩
    dsimp only
    rw [getD_set_self _ [] htlen]
    rw [List.getD_eq_getElem?_getD, List.getElem?_set_self (by omega)]
    rfl

theorem C1_bounded_tick_amended_witness :
    (getState sample_world_freq.pub ≠ 0 ∧
     sample_world_freq.model.getD sample_world_freq.pub.addr none
        = some sample_device) ∧
    ((sample_world_freq.pub.state_maj = 0 →
        (update (fun _ => true) sample_world_freq).2.1 ≤ 1) ∧
     (sample_world_freq.pub.state_maj = 1 →
        (update (fun _ => true) sample_world_freq).2.1 ≤ 2) ∧
     cursor (update (fun _ => true) sample_world_freq).1
        ≠ cursor sample_world_freq) :=
  ⟨⟨by decide, by decide⟩,
    C1_bounded_tick_amended (fun _ => true) sample_world_freq sample_device
      (by decide) (by decide)⟩

theorem C5_timer_retirement_witness :
    (sample_world_timer.model.getD sample_world_timer.pub.addr none
        = some sample_device ∧
     sample_world_timer.pub.addr < sample_world_timer.pub.states.length ∧
     2 < sample_device.timers.length ∧
     (sample_device.timers.getD 2 []).length = 8 ∧
     sample_world_timer.pub.state_min = 2 * 8 + 7 ∧
     2 < 8 ∧
     (1 <<< 2) &&& change_get_timer_mask (getState sample_world_timer.pub) ≠ 0) ∧
    (getState (publish_timers (fun _ => false) sample_world_timer).1.pub &&&
        timer_day_2_change 2 = 0 ∧
     (((sample_device.timers.getD 2 []).getD 7 ⟨false, false⟩).published = false →
      ((sample_device.timers.getD 2 []).getD 7 ⟨false, false⟩).remote_valid = true →
      (publish_timers (fun _ => false) sample_world_timer).2.1 = 2 ∧
      ∃ hr2, (publish_timers (fun _ => false) sample_world_timer).1.model.getD
          sample_world_timer.pub.addr none = some hr2 ∧
        ((hr2.timers.getD 2 []).getD 7 ⟨false, false⟩).published = true)) :=
  ⟨⟨by decide, by decide, by decide, by decide, by decide, by decide, by decide⟩,
    C5_timer_retirement (fun _ => false) sample_world_timer sample_device 2
      (by decide) (by decide) (by decide) (by decide) (by decide) (by decide)
      (by decide)⟩

theorem compose_wildcard_eq (pfx : List Char) :
    compose_set_pfx_wildcard pfx = pfx ++ "/set/#".toList := by
  unfold compose_set_pfx_wildcard S_SET_MODE
  simp only [List.append_assoc]
  rfl

/-- C8: when not connected, `reconnect` attempts a connection only once the
retry interval has elapsed (otherwise it reports not ready without an
attempt); whenever it attempts, the attempt time is recorded as `now` before
the outcome is known, for success and failure alike; on success it
subscribes to the `<prefix>/set/#` wildcard and reports ready. -/
theorem C8_reconnect_backoff (retry : Int) (pfx : List Char)
    (connect_ok : Bool) (now last_conn : Int) :
    (now - last_conn < retry →
      reconnect retry pfx false connect_ok now last_conn =
        ⟨false, last_conn, false, none⟩) ∧
    (retry ≤ now - last_conn →
      (reconnect retry pfx false connect_ok now last_conn).attempted = true ∧
      (reconnect retry pfx false connect_ok now last_conn).last_conn = now) ∧
    (retry ≤ now - last_conn → connect_ok = true →
      (reconnect retry pfx false connect_ok now last_conn).ready = true ∧
      (reconnect retry pfx false connect_ok now last_conn).subscribed =
        some (pfx ++ "/set/#".toList)) := by
  unfold reconnect
  rw [if_neg (by simp)]
  refine ⟨fun h => ?_, fun h => ?_, fun h hok => ?_⟩
  · rw [if_pos h]
  · rw [if_neg (by omega)]
    cases connect_ok <;> simp
  · subst hok
    rw [if_neg (by omega)]
    simp [compose_wildcard_eq]

/-- C7: for a valid TIMER setter path addressed to a known device, the
dispatcher rejects an out-of-range day with the day-specific error code
(day | 0x10), rejects an out-of-range slot with the distinct slot-specific
code (slot | 0x20) — in both cases calling no device setter, so the device
state is untouched — and otherwise dispatches on the timer sub-topic to the
set-timer-mode or set-timer-time operation with the raw payload. -/
theorem C7_dispatcher_timer_bounds (pfx : List Char) (tdays tslots : Nat)
    (model : List (Option HRDevice)) (ok : Bool) (topic payload : List Char)
    (p : Path) (hp : parse pfx topic = p)
    (hv : p.valid = true) (hs : p.setter = true) (ht : p.topic = .TIMER)
    (hd : (model.getD p.addr none).isSome = true) :
    (tdays ≤ p.day →
      callback pfx tdays tslots model ok topic payload =
        ⟨[.mqtt_invalid_timer_topic_arg (p.day ||| 0x10),
          .mqtt_callback p.as_uint], none⟩) ∧
    (p.day < tdays → tslots ≤ p.slot →
      callback pfx tdays tslots model ok topic payload =
        ⟨[.mqtt_invalid_timer_topic_arg (p.slot ||| 0x20),
          .mqtt_callback p.as_uint], none⟩) ∧
    (p.day < tdays → p.slot < tslots →
      (p.timer_topic = .TIMER_MODE ∨ p.timer_topic = .TIMER_TIME) ∧
      (p.timer_topic = .TIMER_MODE →
        (callback pfx tdays tslots model ok topic payload).call =
          some (.timer_mode p.day p.slot payload)) ∧
      (p.timer_topic = .TIMER_TIME →
        (callback pfx tdays tslots model ok topic payload).call =
          some (.timer_time p.day p.slot payload))) := by
  rcases parse_shape pfx topic with h0 | ⟨a, t, sm, h1, h2, h3, heq⟩ |
    ⟨a, d2, s2, tt, sm, htt, ha, hd2, hs2, heq⟩
  · rw [h0] at hp
    subst hp
    exact absurd hv (by decide)
  · rw [heq] at hp
    subst hp
    exact absurd ht h2
  · rw [heq] at hp
    subst hp
    have hsm : sm = true := hs
    subst hsm
    obtain ⟨dev, hdev2⟩ : ∃ d, model.getD a none = some d := by
      rcases hx : model.getD a none with _ | d
      · rw [show (⟨a, d2, s2, .TIMER, tt, true⟩ : Path).addr = a from rfl,
          hx] at hd
        exact absurd hd (by decide)
      · exact ⟨d, rfl⟩
    unfold callback
    rw [heq]
    dsimp only
    rw [if_neg (by rw [hv]; decide)]
    rw [if_neg (by decide)]
    rw [show model.getD (⟨a, d2, s2, .TIMER, tt, true⟩ : Path).addr none
        = some dev from hdev2]
    refine ⟨fun hday => ?_, fun hday hslot => ?_, fun hday hslot => ?_⟩
    · rw [if_pos hday]
      simp [finish_cb]
    · have hday2 : (⟨a, d2, s2, .TIMER, tt, true⟩ : Path).day < tdays := hday
      rw [if_neg (Nat.not_le.2 hday2), if_pos hslot]
      simp [finish_cb]
    · have hday2 : (⟨a, d2, s2, .TIMER, tt, true⟩ : Path).day < tdays := hday
      have hslot2 : (⟨a, d2, s2, .TIMER, tt, true⟩ : Path).slot < tslots := hslot
      rw [if_neg (Nat.not_le.2 hday2), if_neg (Nat.not_le.2 hslot2)]
      rcases htt with rfl | rfl
      · exact ⟨Or.inr rfl, fun hcon => absurd hcon (by decide),
          fun _ => by simp [finish_cb]⟩
      · exact ⟨Or.inl rfl, fun _ => by simp [finish_cb],
          fun hcon => absurd hcon (by decide)⟩

theorem C7_dispatcher_timer_bounds_witness :
    (parse "hr20".toList "hr20/set/3/timer/9/1/mode".toList =
        (⟨3, 9, 1, .TIMER, .TIMER_MODE, true⟩ : Path) ∧
     (⟨3, 9, 1, .TIMER, .TIMER_MODE, true⟩ : Path).valid = true ∧
     (⟨3, 9, 1, .TIMER, .TIMER_MODE, true⟩ : Path).setter = true ∧
     (⟨3, 9, 1, .TIMER, .TIMER_MODE, true⟩ : Path).topic = .TIMER ∧
     ((((List.replicate 32 (none : Option HRDevice)).set 3
          (some sample_device))).getD
        (⟨3, 9, 1, .TIMER, .TIMER_MODE, true⟩ : Path).addr none).isSome = true) ∧
    ((8 ≤ (⟨3, 9, 1, .TIMER, .TIMER_MODE, true⟩ : Path).day →
      callback "hr20".toList 8 8
          ((List.replicate 32 (none : Option HRDevice)).set 3 (some sample_device))
          true "hr20/set/3/timer/9/1/mode".toList "1".toList =
        ⟨[.mqtt_invalid_timer_topic_arg
            ((⟨3, 9, 1, .TIMER, .TIMER_MODE, true⟩ : Path).day ||| 0x10),
          .mqtt_callback (⟨3, 9, 1, .TIMER, .TIMER_MODE, true⟩ : Path).as_uint],
         none⟩) ∧
     ((⟨3, 9, 1, .TIMER, .TIMER_MODE, true⟩ : Path).day < 8 →
      8 ≤ (⟨3, 9, 1, .TIMER, .TIMER_MODE, true⟩ : Path).slot →
      callback "hr20".toList 8 8
          ((List.replicate 32 (none : Option HRDevice)).set 3 (some sample_device))
          true "hr20/set/3/timer/9/1/mode".toList "1".toList =
        ⟨[.mqtt_invalid_timer_topic_arg
            ((⟨3, 9, 1, .TIMER, .TIMER_MODE, true⟩ : Path).slot ||| 0x20),
          .mqtt_callback (⟨3, 9, 1, .TIMER, .TIMER_MODE, true⟩ : Path).as_uint],
         none⟩) ∧
     ((⟨3, 9, 1, .TIMER, .TIMER_MODE, true⟩ : Path).day < 8 →
      (⟨3, 9, 1, .TIMER, .TIMER_MODE, true⟩ : Path).slot < 8 →
      ((⟨3, 9, 1, .TIMER, .TIMER_MODE, true⟩ : Path).timer_topic = .TIMER_MODE ∨
       (⟨3, 9, 1, .TIMER, .TIMER_MODE, true⟩ : Path).timer_topic = .TIMER_TIME) ∧
      ((⟨3, 9, 1, .TIMER, .TIMER_MODE, true⟩ : Path).timer_topic = .TIMER_MODE →
        (callback "hr20".toList 8 8
            ((List.replicate 32 (none : Option HRDevice)).set 3
              (some sample_device))
            true "hr20/set/3/timer/9/1/mode".toList "1".toList).call =
          some (.timer_mode (⟨3, 9, 1, .TIMER, .TIMER_MODE, true⟩ : Path).day
            (⟨3, 9, 1, .TIMER, .TIMER_MODE, true⟩ : Path).slot "1".toList)) ∧
      ((⟨3, 9, 1, .TIMER, .TIMER_MODE, true⟩ : Path).timer_topic = .TIMER_TIME →
        (callback "hr20".toList 8 8
            ((List.replicate 32 (none : Option HRDevice)).set 3
              (some sample_device))
            true "hr20/set/3/timer/9/1/mode".toList "1".toList).call =
          some (.timer_time (⟨3, 9, 1, .TIMER, .TIMER_MODE, true⟩ : Path).day
            (⟨3, 9, 1, .TIMER, .TIMER_MODE, true⟩ : Path).slot "1".toList)))) :=
  ⟨⟨by decide, by decide, by decide, by decide, by decide⟩,
    C7_dispatcher_timer_bounds "hr20".toList 8 8
      ((List.replicate 32 (none : Option HRDevice)).set 3 (some sample_device))
      true "hr20/set/3/timer/9/1/mode".toList "1".toList
      ⟨3, 9, 1, .TIMER, .TIMER_MODE, true⟩
      (by decide) (by decide) (by decide) (by decide) (by decide)⟩

end mqtt
end hr20
